import Mathlib

/-!
Verification of the stance-dataset loader of `tweet-stance-prediction`
(`src/transformer.ipynb`, cells defining `_stance` and `stance`).

The loader reads two tab-separated files, cleans the `Tweet` field to
7-bit ASCII, optionally filters rows by `Target`, encodes the `Stance`
string as an integer, and splits the labelled data into train/validation
partitions with scikit-learn's `train_test_split` seeded by the
module-level variable `seed`.

The embedding below models a parsed data frame as a list of records.
`pandas.read_csv` parsing itself (tab splitting, header handling) is not
modelled; the claims under study are about what the loader does with the
parsed rows.
-/

namespace StanceLoader

/-- One parsed row of an input file.  `stance` is `none` when the row has
no usable `Stance` value: the column is absent from the file, or the
field is empty (pandas reads it as `NaN`).  In the source either case
makes the lookup `class_nums[s]` (or the attribute access `df.Stance`)
fail. -/
structure Row where
  tweet : String
  target : String
  stance : Option String
deriving Repr, DecidableEq

/-- Errors the loader can raise.  `unrecognizedLabel v` models the
`KeyError` from `class_nums[s]` (with `v = none` for a missing/NaN
stance, mirroring the `AttributeError`/`KeyError` on a missing column);
`emptyTrain n` models the `ValueError` scikit-learn's
`train_test_split` raises when the resulting train set would be empty. -/
inductive LoadError where
  | unrecognizedLabel (v : Option String)
  | emptyTrain (n : Nat)
deriving Repr, DecidableEq

/-- `clean_ascii` from `_stance`:
`return ''.join(i for i in text if ord(i) < 128)`. -/
def clean_ascii (text : String) : String :=
  String.mk (text.data.filter (fun i => i.toNat < 128))

/-- `orig['Tweet'] = orig['Tweet'].apply(clean_ascii)`: the cleaning pass
over one row.  Only the `Tweet` field is assigned. -/
def cleanRow (r : Row) : Row :=
  { r with tweet := clean_ascii r.tweet }

/-- `stances = ["AGAINST", "FAVOR", "NONE", "UNKNOWN"]`. -/
def stances : List String := ["AGAINST", "FAVOR", "NONE", "UNKNOWN"]

/-- `class_nums = {s: i for i, s in enumerate(stances)}`, as the partial
lookup `class_nums[s]` (`none` models the `KeyError` branch). -/
def class_nums (s : String) : Option Nat :=
  stances.indexOf? s

/-- The label lookup on a row's raw `Stance` cell: a missing/NaN cell
(`none`) fails the same way an unrecognized string does. -/
def stanceCode (v : Option String) : Option Nat :=
  match v with
  | none => none
  | some s => class_nums s

/-- `if topic is not None: df = df.loc[df['Target'] == topic]`. -/
def filterTopic (topic : Option String) (rows : List Row) : List Row :=
  match topic with
  | none => rows
  | some t => rows.filter (fun r => r.target == t)

/-- `Y = np.array([class_nums[s] for s in df.Stance])`: encode every
retained row's stance, failing with a `KeyError` at the first value
outside the mapping. -/
def encodeLabels : List Row → Except LoadError (List Nat)
  | [] => .ok []
  | r :: rs =>
    match stanceCode r.stance with
    | none => .error (.unrecognizedLabel r.stance)
    | some i =>
      match encodeLabels rs with
      | .error e => .error e
      | .ok ys => .ok (i :: ys)

/-- `_stance(path, topic=None)` from the notebook, acting on the parsed
rows of the file at `path`: clean every `Tweet`, filter by `Target` when
a topic is given, return the retained tweets and encoded stance labels. -/
def _stance (file : List Row) (topic : Option String) :
    Except LoadError (List String × List Nat) := do
  let orig := file.map cleanRow
  let df := filterTopic topic orig
  let X := df.map (fun r => r.tweet)
  let Y ← encodeLabels df
  return (X, Y)

/-!
### The train/validation splitter

`stance` delegates the split to scikit-learn:
`train_test_split(X, Y, test_size=0.2, random_state=seed)`, which
(a) computes `n_test = ceil(test_size * n)` and `n_train = n - n_test`,
raising `ValueError` when `n_train == 0`; (b) draws a pseudo-random
permutation of `range(n)` from `numpy.random.RandomState(seed)` — a pure
deterministic function of the seed; (c) returns the rows at the first
`n_test` permuted indices as the test (here: validation) side and the
remaining indices as the train side.

`train_test_split` is an external library, so the pseudo-random stream is
modelled: `lcg`/`shuffleGo` stand in for the Mersenne-Twister draw, but
keep its interface properties — the result is a permutation of
`range(n)` determined by `(seed, n)` alone.  No claim under study
depends on the concrete permutation values, only on these properties.
-/

/-- Decidable equality for `Except`, so concrete loader results can be
checked by `decide`. -/
instance instDecEqExcept {ε α : Type} [DecidableEq ε] [DecidableEq α] :
    DecidableEq (Except ε α)
  | .ok a, .ok b =>
    if h : a = b then .isTrue (by rw [h]) else
      .isFalse (fun hc => by cases hc; exact h rfl)
  | .error e, .error f =>
    if h : e = f then .isTrue (by rw [h]) else
      .isFalse (fun hc => by cases hc; exact h rfl)
  | .ok _, .error _ => .isFalse (fun hc => by cases hc)
  | .error _, .ok _ => .isFalse (fun hc => by cases hc)

/-- Deterministic 64-bit linear congruential step, modelling the
pseudo-random stream of `numpy.random.RandomState`. -/
def lcg (g : Nat) : Nat :=
  (6364136223846793005 * g + 1442695040888963407) % 2 ^ 64

/-- Pick-and-remove shuffle driven by `lcg`: repeatedly extract the
element at position `g % length`.  Structural recursion on a fuel
argument (instantiated to the list length, which never runs out); when
fuel is exhausted the remaining elements are emitted unchanged. -/
def shuffleGo : Nat → Nat → List Nat → List Nat
  | 0, _, l => l
  | _ + 1, _, [] => []
  | fuel + 1, g, a :: rest =>
    let l := a :: rest
    let k := g % l.length
    l.get ⟨k, Nat.mod_lt _ (Nat.succ_pos rest.length)⟩ ::
      shuffleGo fuel (lcg g) (l.eraseIdx k)

/-- `rng.permutation(n)` for `rng = RandomState(seed)`: a pseudo-random
permutation of `range(n)`, a pure function of `(seed, n)`.  NumPy folds
the seed into a 32-bit state, hence the `% 2 ^ 32`. -/
def permutation (seed n : Nat) : List Nat :=
  shuffleGo n (lcg (seed % 2 ^ 32)) (List.range n)

/-- `n_test = ceil(test_size * n_samples)` from scikit-learn's
`_validate_shuffle_split`.  The fraction `test_size` is carried as the
exact rational `p / q` (the source passes the float `0.2`, i.e.
`1 / 5`); for `q > 0`, `(p * n + q - 1) / q` is `⌈p * n / q⌉` in natural
arithmetic. -/
def nTest (p q n : Nat) : Nat :=
  (p * n + q - 1) / q

/-- The index sets of the two sides of the split: `(train, test)` where
the test side takes the first `nTest` permuted indices and the train
side the rest. -/
def splitIndices (p q seed n : Nat) : List Nat × List Nat :=
  let perm := permutation seed n
  (perm.drop (nTest p q n), perm.take (nTest p q n))

/-- `train_test_split(X, Y, test_size=p/q, random_state=seed)`, returning
`(X_train, X_test, y_train, y_test)`.  Raises (`.error`) when the train
side would be empty, as `_validate_shuffle_split` does. -/
def train_test_split (X : List String) (Y : List Nat) (p q seed : Nat) :
    Except LoadError (List String × List String × List Nat × List Nat) :=
  let n := X.length
  let nte := nTest p q n
  if n - nte = 0 then .error (.emptyTrain n)
  else
    let trIdx := (splitIndices p q seed n).1
    let teIdx := (splitIndices p q seed n).2
    .ok (trIdx.map (fun i => X.getD i ""),
         teIdx.map (fun i => X.getD i ""),
         trIdx.map (fun i => Y.getD i 0),
         teIdx.map (fun i => Y.getD i 0))

/-- The two parsed input files of a data directory:
`semeval2016-task6-trainingdata.txt` and
`SemEval2016-Task6-subtaskA-testdata.txt`. -/
structure DataDir where
  trainFile : List Row
  testFile : List Row
deriving Repr, DecidableEq

/-- `stance(data_dir, topic=None)` from the notebook, with the
module-level `seed` it reads passed explicitly.  Loads both files with
the same topic filter, splits the labelled data with
`train_test_split(X, Y, test_size=0.2, random_state=seed)`, copies the
two sides element-wise (`for t, s in zip(...)`), and returns
`(trX, trY), (vaX, vaY), (teX,)` — the test group without labels.
Labels are materialized as `np.int32`; every code is in `0..3`, far
below `2 ^ 31`, so plain naturals represent them exactly. -/
def stance (d : DataDir) (topic : Option String) (seed : Nat) :
    Except LoadError ((List String × List Nat) × (List String × List Nat) ×
      List String) := do
  let (X, Y) ← _stance d.trainFile topic
  let (teX, _) ← _stance d.testFile topic
  let (tr_text, va_text, tr_sent, va_sent) ← train_test_split X Y 1 5 seed
  let trPairs := List.zip tr_text tr_sent
  let trX := trPairs.map (fun p => p.1)
  let trY := trPairs.map (fun p => p.2)
  let vaPairs := List.zip va_text va_sent
  let vaX := vaPairs.map (fun p => p.1)
  let vaY := vaPairs.map (fun p => p.2)
  return ((trX, trY), (vaX, vaY), teX)

/-- The ambient interpreter state `stance` runs in: the module-level
`seed` variable it reads, plus the global NumPy RNG state
(`numpy.random`'s hidden `RandomState`), which other modules may have
advanced arbitrarily and which `stance` never touches — it passes
`random_state=seed` explicitly. -/
structure GlobalState where
  seed : Nat
  npGlobalRng : Nat
deriving Repr, DecidableEq

/-- `stance` as invoked in the notebook: reading the seed from the
ambient state. -/
def stanceG (d : DataDir) (topic : Option String) (g : GlobalState) :
    Except LoadError ((List String × List Nat) × (List String × List Nat) ×
      List String) :=
  stance d topic g.seed

/-- A small labelled training file used to instantiate the theorems on
concrete data. -/
def exTrain : List Row :=
  [⟨"a", "T", some "FAVOR"⟩, ⟨"b", "T", some "AGAINST"⟩,
   ⟨"c", "T", some "NONE"⟩, ⟨"d", "T", some "FAVOR"⟩]

/-- A small test file (its `Stance` column is `UNKNOWN` throughout, as in
the distributed SemEval test data). -/
def exTest : List Row := [⟨"t1", "T", some "UNKNOWN"⟩]

/-- A concrete data directory for instantiations. -/
def exDir : DataDir := ⟨exTrain, exTest⟩

/-!
### Helper lemmas
-/

theorem get_cons_eraseIdx_perm (l : List Nat) (k : Nat) (h : k < l.length) :
    (l.get ⟨k, h⟩ :: l.eraseIdx k).Perm l := by
  have hd : l.get ⟨k, h⟩ :: List.drop (k + 1) l = List.drop k l :=
    List.getElem_cons_drop l k h
  rw [List.eraseIdx_eq_take_drop_succ]
  have h1 : (l.get ⟨k, h⟩ :: (List.take k l ++ List.drop (k + 1) l)).Perm
      (List.take k l ++ (l.get ⟨k, h⟩ :: List.drop (k + 1) l)) :=
    List.perm_middle.symm
  rw [hd, List.take_append_drop] at h1
  exact h1

theorem shuffleGo_perm : ∀ (fuel g : Nat) (l : List Nat),
    (shuffleGo fuel g l).Perm l
  | 0, _, l => List.Perm.refl l
  | _ + 1, _, [] => List.Perm.refl []
  | fuel + 1, g, a :: rest => by
    rw [shuffleGo]
    exact ((shuffleGo_perm fuel (lcg g) _).cons _).trans
      (get_cons_eraseIdx_perm (a :: rest) _ _)

theorem permutation_perm (seed n : Nat) :
    (permutation seed n).Perm (List.range n) :=
  shuffleGo_perm n (lcg (seed % 2 ^ 32)) (List.range n)

theorem permutation_length (seed n : Nat) :
    (permutation seed n).length = n := by
  simpa using (permutation_perm seed n).length_eq

theorem permutation_nodup (seed n : Nat) :
    (permutation seed n).Nodup :=
  ((permutation_perm seed n).symm).nodup (List.nodup_range n)

theorem encodeLabels_ok_length {l : List Row} {ys : List Nat}
    (h : encodeLabels l = .ok ys) : ys.length = l.length := by
  induction l generalizing ys with
  | nil => cases h; rfl
  | cons r rs ih =>
    rw [encodeLabels] at h
    cases hc : stanceCode r.stance with
    | none => rw [hc] at h; cases h
    | some i =>
      rw [hc] at h
      cases he : encodeLabels rs with
      | error e => rw [he] at h; cases h
      | ok zs => rw [he] at h; cases h; simp [ih he]

theorem encodeLabels_ok_get {l : List Row} {ys : List Nat}
    (h : encodeLabels l = .ok ys) :
    ∀ i (hi : i < l.length) (hi' : i < ys.length),
      stanceCode (l.get ⟨i, hi⟩).stance = some (ys.get ⟨i, hi'⟩) := by
  induction l generalizing ys with
  | nil => intro i hi; cases hi
  | cons r rs ih =>
    rw [encodeLabels] at h
    cases hc : stanceCode r.stance with
    | none => rw [hc] at h; cases h
    | some c =>
      rw [hc] at h
      cases he : encodeLabels rs with
      | error e => rw [he] at h; cases h
      | ok zs =>
        rw [he] at h
        cases h
        intro i hi hi'
        cases i with
        | zero => simpa using hc
        | succ j => exact ih he j (Nat.lt_of_succ_lt_succ hi) (Nat.lt_of_succ_lt_succ hi')

theorem encodeLabels_error_of_bad {l : List Row}
    (h : ∃ r ∈ l, stanceCode r.stance = none) :
    ∃ v, encodeLabels l = .error (.unrecognizedLabel v) ∧ stanceCode v = none := by
  induction l with
  | nil => obtain ⟨r, hr, -⟩ := h; cases hr
  | cons r rs ih =>
    obtain ⟨r', hr', hbad⟩ := h
    rw [encodeLabels]
    cases hc : stanceCode r.stance with
    | none => exact ⟨r.stance, rfl, hc⟩
    | some c =>
      rcases List.mem_cons.mp hr' with rfl | hmem
      · rw [hc] at hbad; cases hbad
      · obtain ⟨v, hv, hvnone⟩ := ih ⟨r', hmem, hbad⟩
        rw [hv]
        exact ⟨v, rfl, hvnone⟩

theorem encodeLabels_map_cleanRow (l : List Row) :
    encodeLabels (l.map cleanRow) = encodeLabels l := by
  induction l with
  | nil => rfl
  | cons r rs ih => simp [encodeLabels, cleanRow, ih]

/-- The filtered, cleaned data frame `df` of `_stance`. -/
def df (file : List Row) (topic : Option String) : List Row :=
  filterTopic topic (file.map cleanRow)

theorem _stance_eq (file : List Row) (topic : Option String) :
    _stance file topic =
      match encodeLabels (df file topic) with
      | .error e => .error e
      | .ok Y => .ok ((df file topic).map (fun r => r.tweet), Y) := by
  rw [_stance]
  cases h : encodeLabels (df file topic) with
  | error e => simp [df] at h ⊢; rw [h]; rfl
  | ok Y => simp [df] at h ⊢; rw [h]; rfl

theorem _stance_ok_iff {file : List Row} {topic : Option String}
    {X : List String} {Y : List Nat} :
    _stance file topic = .ok (X, Y) ↔
      encodeLabels (df file topic) = .ok Y ∧
      X = (df file topic).map (fun r => r.tweet) := by
  rw [_stance_eq]
  cases h : encodeLabels (df file topic) with
  | error e => simp
  | ok Z =>
    constructor
    · intro hok
      cases hok
      exact ⟨rfl, rfl⟩
    · rintro ⟨hz, hx⟩
      cases hz
      rw [hx]

theorem _stance_error_of_bad {file : List Row} {topic : Option String}
    (h : ∃ r ∈ df file topic, stanceCode r.stance = none) :
    ∃ v, _stance file topic = .error (.unrecognizedLabel v) ∧
      stanceCode v = none := by
  obtain ⟨v, hv, hvnone⟩ := encodeLabels_error_of_bad h
  refine ⟨v, ?_, hvnone⟩
  rw [_stance_eq, hv]

theorem nTest_le (p q n : Nat) (hq : 0 < q) (hpq : p ≤ q) :
    nTest p q n ≤ n := by
  unfold nTest
  have h1 : p * n + q - 1 < (n + 1) * q := by
    have : p * n ≤ q * n := Nat.mul_le_mul_right n hpq
    have : p * n + q - 1 < q * n + q := by omega
    calc p * n + q - 1 < q * n + q := this
      _ = (n + 1) * q := by ring
  have := (Nat.div_lt_iff_lt_mul hq).mpr h1
  omega

theorem nTest_cast (p q n : Nat) (hq : 0 < q) :
    (nTest p q n : ℤ) = Int.ceil ((p : ℚ) * n / q) := by
  set k := nTest p q n with hk
  have h1 : k * q ≤ p * n + q - 1 := Nat.div_mul_le_self _ _
  have h2 : p * n + q - 1 < (k + 1) * q :=
    (Nat.div_lt_iff_lt_mul hq).mp (Nat.lt_succ_self _)
  rw [Nat.succ_mul] at h2
  have hub : p * n ≤ k * q := by omega
  have hlb : k * q < p * n + q := by omega
  have hq' : (0 : ℚ) < (q : ℚ) := by exact_mod_cast hq
  symm
  rw [Int.ceil_eq_iff]
  constructor
  · rw [lt_div_iff₀ hq']
    push_cast
    have : (k : ℚ) * q < (p : ℚ) * n + q := by exact_mod_cast hlb
    linarith
  · rw [div_le_iff₀ hq']
    push_cast
    exact_mod_cast hub

theorem ceil_round_close (x : ℚ) : |Int.ceil x - round x| ≤ 1 := by
  have h1 : (Int.ceil x : ℚ) < x + 1 := Int.ceil_lt_add_one x
  have h2 : x ≤ Int.ceil x := Int.le_ceil x
  have h3 : |x - round x| ≤ 1 / 2 := abs_sub_round x
  have h3a : x - round x ≤ 1 / 2 := (abs_le.mp h3).2
  have h3b : -(1 / 2) ≤ x - round x := (abs_le.mp h3).1
  have hub : ((Int.ceil x - round x : ℤ) : ℚ) < 2 := by push_cast; linarith
  have hlb : (-2 : ℚ) < ((Int.ceil x - round x : ℤ) : ℚ) := by push_cast; linarith
  have hub' : (Int.ceil x - round x : ℤ) < 2 := by exact_mod_cast hub
  have hlb' : (-2 : ℤ) < (Int.ceil x - round x : ℤ) := by exact_mod_cast hlb
  rw [abs_le]
  omega

theorem splitIndices_lengths (p q s n : Nat) (hle : nTest p q n ≤ n) :
    (splitIndices p q s n).1.length = n - nTest p q n ∧
    (splitIndices p q s n).2.length = nTest p q n := by
  unfold splitIndices
  simp [permutation_length, Nat.min_eq_left hle]

theorem splitIndices_append_perm (p q s n : Nat) :
    ((splitIndices p q s n).1 ++ (splitIndices p q s n).2).Perm
      (List.range n) := by
  unfold splitIndices
  exact (List.perm_append_comm.trans
    (by rw [List.take_append_drop])).trans (permutation_perm s n)

theorem splitIndices_disjoint (p q s n : Nat) :
    (splitIndices p q s n).1.Disjoint (splitIndices p q s n).2 := by
  unfold splitIndices
  exact (List.disjoint_take_drop (permutation_nodup s n) (Nat.le_refl _)).symm

theorem zip_map_collapse {α β γ : Type} (I : List α) (f : α → β) (g : α → γ) :
    (List.zip (I.map f) (I.map g)).map (fun p => p.1) = I.map f ∧
    (List.zip (I.map f) (I.map g)).map (fun p => p.2) = I.map g := by
  constructor
  · exact List.map_fst_zip _ _ (by simp)
  · exact List.map_snd_zip _ _ (by simp)

theorem bindOk {ε α β : Type} (a : α) (f : α → Except ε β) :
    (Except.ok a >>= f) = f a := rfl

theorem bindErr {ε α β : Type} (e : ε) (f : α → Except ε β) :
    ((Except.error e : Except ε α) >>= f) = Except.error e := rfl

theorem pureOk {ε α : Type} (a : α) :
    (pure a : Except ε α) = Except.ok a := rfl

theorem train_test_split_ok_elim {X : List String} {Y : List Nat}
    {p q s : Nat} {tr te : List String} {trs tes : List Nat}
    (h : train_test_split X Y p q s = .ok (tr, te, trs, tes)) :
    X.length - nTest p q X.length ≠ 0 ∧
    tr = (splitIndices p q s X.length).1.map (fun i => X.getD i "") ∧
    te = (splitIndices p q s X.length).2.map (fun i => X.getD i "") ∧
    trs = (splitIndices p q s X.length).1.map (fun i => Y.getD i 0) ∧
    tes = (splitIndices p q s X.length).2.map (fun i => Y.getD i 0) := by
  rw [train_test_split] at h
  by_cases hz : X.length - nTest p q X.length = 0
  · rw [if_pos hz] at h; cases h
  · rw [if_neg hz] at h
    cases h
    exact ⟨hz, rfl, rfl, rfl, rfl⟩

theorem stance_ok_elim {d : DataDir} {topic : Option String} {s : Nat}
    {trX vaX teX : List String} {trY vaY : List Nat}
    (h : stance d topic s = .ok ((trX, trY), (vaX, vaY), teX)) :
    ∃ X Y Yte,
      _stance d.trainFile topic = .ok (X, Y) ∧
      _stance d.testFile topic = .ok (teX, Yte) ∧
      X.length - nTest 1 5 X.length ≠ 0 ∧
      trX = (splitIndices 1 5 s X.length).1.map (fun i => X.getD i "") ∧
      vaX = (splitIndices 1 5 s X.length).2.map (fun i => X.getD i "") ∧
      trY = (splitIndices 1 5 s X.length).1.map (fun i => Y.getD i 0) ∧
      vaY = (splitIndices 1 5 s X.length).2.map (fun i => Y.getD i 0) := by
  rw [stance] at h
  cases h1 : _stance d.trainFile topic with
  | error e => rw [h1] at h; cases h
  | ok XY =>
    rw [h1, bindOk] at h
    obtain ⟨X, Y⟩ := XY
    cases h2 : _stance d.testFile topic with
    | error e => simp only [h2, bindErr] at h; cases h
    | ok teP =>
      obtain ⟨teX', Yte⟩ := teP
      simp only [h2, bindOk] at h
      cases h3 : train_test_split X Y 1 5 s with
      | error e => simp only [h3, bindErr] at h; cases h
      | ok res =>
        obtain ⟨tr_text, va_text, tr_sent, va_sent⟩ := res
        simp only [h3, bindOk] at h
        obtain ⟨hz, htr, hte, htrs, htes⟩ := train_test_split_ok_elim h3
        subst htr hte htrs htes
        obtain ⟨hf1, hs1⟩ := zip_map_collapse (splitIndices 1 5 s X.length).1
          (fun i => X.getD i "") (fun i => Y.getD i 0)
        obtain ⟨hf2, hs2⟩ := zip_map_collapse (splitIndices 1 5 s X.length).2
          (fun i => X.getD i "") (fun i => Y.getD i 0)
        rw [pureOk] at h
        simp only [Except.ok.injEq, Prod.mk.injEq] at h
        obtain ⟨⟨h4, h5⟩, ⟨h6, h7⟩, h8⟩ := h
        refine ⟨X, Y, Yte, rfl, ?_, hz, ?_, ?_, ?_, ?_⟩
        · rw [h8]
        · rw [← h4, hf1]
        · rw [← h6, hf2]
        · rw [← h5, hs1]
        · rw [← h7, hs2]

theorem filterTopic_subset {topic : Option String} {rows : List Row} {r : Row}
    (h : r ∈ filterTopic topic rows) : r ∈ rows := by
  cases topic with
  | none => exact h
  | some t => exact (List.mem_filter.mp h).1

/-!
### Claim theorems
-/

/-- C1: `loadSplits` (`stance`) is deterministic: the train/validation/test
partition is a pure function of the loaded data, the topic filter, and the
value of the `seed` variable, with no dependence on other ambient state
(in particular not on the global NumPy RNG); two calls with identical
arguments and equal seeds yield identical partitions. -/
theorem stance_deterministic (d : DataDir) (topic : Option String)
    (g1 g2 : GlobalState) (h : g1.seed = g2.seed) :
    stanceG d topic g1 = stanceG d topic g2 := by
  unfold stanceG
  rw [h]

theorem stance_deterministic_witness :
    (GlobalState.mk 42 0).seed = (GlobalState.mk 42 987654321).seed ∧
    stanceG exDir none (GlobalState.mk 42 0) =
      stanceG exDir none (GlobalState.mk 42 987654321) :=
  ⟨rfl, stance_deterministic exDir none (GlobalState.mk 42 0)
    (GlobalState.mk 42 987654321) rfl⟩

/-- C2: `loadRaw` (`_stance`) encodes every retained row's `Stance` by the
fixed mapping `AGAINST↦0, FAVOR↦1, NONE↦2, UNKNOWN↦3`; any `Stance` value
outside this set (or a missing one) makes the load fail with the
unrecognized-label condition instead of assigning a default code. -/
theorem stance_label_mapping :
    (class_nums "AGAINST" = some 0 ∧ class_nums "FAVOR" = some 1 ∧
      class_nums "NONE" = some 2 ∧ class_nums "UNKNOWN" = some 3) ∧
    (∀ s : String, s ∉ stances → class_nums s = none) ∧
    (∀ (file : List Row) (topic : Option String) (X : List String)
        (Y : List Nat), _stance file topic = .ok (X, Y) →
      ∀ i (hi : i < (df file topic).length) (hi' : i < Y.length),
        stanceCode ((df file topic).get ⟨i, hi⟩).stance =
          some (Y.get ⟨i, hi'⟩)) ∧
    (∀ (file : List Row) (topic : Option String),
      (∃ r ∈ df file topic, stanceCode r.stance = none) →
      ∃ v, _stance file topic = .error (.unrecognizedLabel v) ∧
        stanceCode v = none) := by
  refine ⟨⟨rfl, rfl, rfl, rfl⟩, ?_, ?_, ?_⟩
  · intro s hs
    unfold class_nums
    rw [List.indexOf?_eq_none_iff]
    intro x hx hbeq
    exact hs (eq_of_beq hbeq ▸ hx)
  · intro file topic X Y hok
    exact encodeLabels_ok_get (_stance_ok_iff.mp hok).1
  · intro file topic hbad
    exact _stance_error_of_bad hbad

theorem stance_label_mapping_witness :
    ((⟨"x", "A", some "MAYBE"⟩ : Row) ∈ df [⟨"x", "A", some "MAYBE"⟩] none ∧
      stanceCode (some "MAYBE") = none) ∧
    ∃ v, _stance [⟨"x", "A", some "MAYBE"⟩] none =
        .error (.unrecognizedLabel v) ∧ stanceCode v = none :=
  ⟨⟨by decide, by decide⟩,
    stance_label_mapping.2.2.2 [⟨"x", "A", some "MAYBE"⟩] none
      ⟨⟨"x", "A", some "MAYBE"⟩, by decide, by decide⟩⟩

/-- C7: for every valid input the two sequences returned by `_stance` have
equal length, are index-aligned (the `i`-th text and the `i`-th label come
from the same retained row), and preserve the input row order of the
retained rows: the retained frame is a sublist (order-preserving
selection) of the cleaned input rows. -/
theorem stance_output_aligned :
    ∀ (file : List Row) (topic : Option String) (X : List String)
      (Y : List Nat), _stance file topic = .ok (X, Y) →
      X.length = Y.length ∧
      X = (df file topic).map (fun r => r.tweet) ∧
      (df file topic).Sublist (file.map cleanRow) ∧
      ∀ i (hi : i < (df file topic).length) (hiX : i < X.length)
        (hiY : i < Y.length),
        X.get ⟨i, hiX⟩ = ((df file topic).get ⟨i, hi⟩).tweet ∧
        stanceCode ((df file topic).get ⟨i, hi⟩).stance =
          some (Y.get ⟨i, hiY⟩) := by
  intro file topic X Y hok
  obtain ⟨henc, hX⟩ := _stance_ok_iff.mp hok
  have hlenY : Y.length = (df file topic).length := encodeLabels_ok_length henc
  have hlenX : X.length = (df file topic).length := by
    rw [hX, List.length_map]
  refine ⟨by rw [hlenX, hlenY], hX, ?_, ?_⟩
  · unfold df filterTopic
    cases topic with
    | none => exact List.Sublist.refl _
    | some t => exact List.filter_sublist _
  · intro i hi hiX hiY
    constructor
    · subst hX
      simp
    · exact encodeLabels_ok_get henc i hi hiY

theorem stance_output_aligned_witness :
    _stance exTrain none =
      .ok (["a", "b", "c", "d"], [1, 0, 2, 1]) ∧
    (["a", "b", "c", "d"] : List String).length = ([1, 0, 2, 1] : List Nat).length :=
  ⟨by decide,
    (stance_output_aligned exTrain none ["a", "b", "c", "d"] [1, 0, 2, 1]
      (by decide)).1⟩

/-- C8: the cleaned `Tweet` text is the original text with exactly the
characters of code point `≥ 128` removed — an order-preserving selection
that keeps every character below 128 (with multiplicity) and drops every
character at or above 128 — and `_stance` applies this normalization
identically to every retained record, so no output text contains a
character with code point `≥ 128`. -/
theorem clean_ascii_spec :
    (∀ t : String,
      (clean_ascii t).data.Sublist t.data ∧
      (∀ c : Char, c ∈ (clean_ascii t).data → c.toNat < 128) ∧
      (∀ c : Char, c.toNat < 128 →
        (clean_ascii t).data.count c = t.data.count c) ∧
      (∀ c : Char, 128 ≤ c.toNat → (clean_ascii t).data.count c = 0)) ∧
    (∀ (file : List Row) (topic : Option String) (X : List String)
        (Y : List Nat), _stance file topic = .ok (X, Y) →
      ∀ s ∈ X, (∃ r ∈ file, s = clean_ascii r.tweet) ∧
        ∀ c ∈ s.data, c.toNat < 128) := by
  have hdata : ∀ t : String,
      (clean_ascii t).data = t.data.filter (fun i => i.toNat < 128) := by
    intro t; rfl
  have hmem : ∀ (t : String) (c : Char), c ∈ (clean_ascii t).data →
      c.toNat < 128 := by
    intro t c hc
    rw [hdata] at hc
    simpa using (List.mem_filter.mp hc).2
  constructor
  · intro t
    refine ⟨?_, hmem t, ?_, ?_⟩
    · rw [hdata]; exact List.filter_sublist _
    · intro c hc
      rw [hdata]
      exact List.count_filter (by simpa using hc)
    · intro c hc
      rw [hdata, List.count_eq_zero]
      intro hc'
      have := (List.mem_filter.mp hc').2
      simp only [decide_eq_true_eq] at this
      omega
  · intro file topic X Y hok s hs
    obtain ⟨-, hX, -, -⟩ := stance_output_aligned file topic X Y hok
    rw [hX] at hs
    obtain ⟨r', hr', rfl⟩ := List.mem_map.mp hs
    have hr'' : r' ∈ file.map cleanRow := filterTopic_subset hr'
    obtain ⟨r, hr, rfl⟩ := List.mem_map.mp hr''
    exact ⟨⟨r, hr, rfl⟩, hmem r.tweet⟩

theorem clean_ascii_spec_witness :
    ("h\x65llo".data.filter (fun i => i.toNat < 128)).Sublist "h\x65llo".data ∧
    _stance exTrain none = .ok (["a", "b", "c", "d"], [1, 0, 2, 1]) ∧
    ("a" : String) ∈ (["a", "b", "c", "d"] : List String) ∧
    (∃ r ∈ exTrain, ("a" : String) = clean_ascii r.tweet) :=
  ⟨(clean_ascii_spec.1 "h\x65llo").1, by decide, by decide,
    ((clean_ascii_spec.2 exTrain none ["a", "b", "c", "d"] [1, 0, 2, 1]
      (by decide) "a" (by decide)).1)⟩

/-- C9: topic filtering retains exactly the rows whose `Target` equals the
filter string under case-sensitive string equality (all rows when no
filter is given), is idempotent, and `stance` applies the same filter to
the training file and the test file. -/
theorem filterTopic_spec :
    (∀ rows : List Row, filterTopic none rows = rows) ∧
    (∀ (t : String) (rows : List Row) (r : Row),
      r ∈ filterTopic (some t) rows ↔ r ∈ rows ∧ r.target = t) ∧
    (∀ (t : String) (rows : List Row) (r : Row), r.target = t →
      (filterTopic (some t) rows).count r = rows.count r) ∧
    (∀ (topic : Option String) (rows : List Row),
      filterTopic topic (filterTopic topic rows) = filterTopic topic rows) ∧
    (∀ (d : DataDir) (topic : Option String) (s : Nat)
        (trX vaX teX : List String) (trY vaY : List Nat),
      stance d topic s = .ok ((trX, trY), (vaX, vaY), teX) →
      ∃ X Y Yte, _stance d.trainFile topic = .ok (X, Y) ∧
        _stance d.testFile topic = .ok (teX, Yte)) := by
  refine ⟨fun rows => rfl, ?_, ?_, ?_, ?_⟩
  · intro t rows r
    unfold filterTopic
    rw [List.mem_filter]
    simp
  · intro t rows r hrt
    unfold filterTopic
    exact List.count_filter (by simpa using hrt)
  · intro topic rows
    cases topic with
    | none => rfl
    | some t =>
      simp only [filterTopic]
      rw [List.filter_filter]
      simp
  · intro d topic s trX vaX teX trY vaY hok
    obtain ⟨X, Y, Yte, h1, h2, -⟩ := stance_ok_elim hok
    exact ⟨X, Y, Yte, h1, h2⟩

theorem filterTopic_spec_witness :
    ((⟨"a", "T", some "FAVOR"⟩ : Row) ∈ filterTopic (some "T") exTrain ↔
      (⟨"a", "T", some "FAVOR"⟩ : Row) ∈ exTrain ∧
        (Row.mk "a" "T" (some "FAVOR")).target = "T") ∧
    (stance exDir none 42 =
      .ok ((["d", "c", "a"], [1, 2, 1]), (["b"], [0]), ["t1"]) ∧
    ∃ X Y Yte, _stance exDir.trainFile none = .ok (X, Y) ∧
      _stance exDir.testFile none = .ok (["t1"], Yte)) :=
  ⟨filterTopic_spec.2.1 "T" exTrain ⟨"a", "T", some "FAVOR"⟩,
    by decide,
    filterTopic_spec.2.2.2.2 exDir none 42 ["d", "c", "a"] ["b"] ["t1"]
      [1, 2, 1] [0] (by decide)⟩

/-- C10: the ASCII normalization is a frame-limited update: it rewrites
only the `Tweet` field, leaving `Target` and `Stance` untouched, so topic
matching commutes with cleaning and label encoding is invariant under
cleaning — both operate on the raw field values from the file. -/
theorem cleanRow_frame :
    (∀ r : Row, (cleanRow r).target = r.target ∧
      (cleanRow r).stance = r.stance ∧
      (cleanRow r).tweet = clean_ascii r.tweet) ∧
    (∀ (topic : Option String) (rows : List Row),
      filterTopic topic (rows.map cleanRow) =
        (filterTopic topic rows).map cleanRow) ∧
    (∀ rows : List Row, encodeLabels (rows.map cleanRow) = encodeLabels rows) := by
  refine ⟨fun r => ⟨rfl, rfl, rfl⟩, ?_, encodeLabels_map_cleanRow⟩
  intro topic rows
  cases topic with
  | none => rfl
  | some t =>
    simp only [filterTopic]
    rw [List.filter_map]
    rfl

theorem cleanRow_frame_witness :
    (cleanRow ⟨"héllo", "Atheism", some "FAVOR"⟩).target = "Atheism" ∧
    (cleanRow ⟨"héllo", "Atheism", some "FAVOR"⟩).stance = some "FAVOR" :=
  ⟨(cleanRow_frame.1 ⟨"héllo", "Atheism", some "FAVOR"⟩).1,
    (cleanRow_frame.1 ⟨"héllo", "Atheism", some "FAVOR"⟩).2.1⟩

/-- C5: split sizes.  The validation (test) side of
`train_test_split(X, Y, test_size=p/q, random_state=s)` receives exactly
`ceil(p/q * n)` items — which is within 1 of `round(p/q * n)` — and the
train and validation sizes sum to the full filtered training-set size;
instantiated inside `stance` at `test_size = 1/5`. -/
theorem stance_split_sizes :
    (∀ (X : List String) (Y : List Nat) (p q s : Nat)
        (tr te : List String) (trs tes : List Nat), 0 < q → p ≤ q →
      train_test_split X Y p q s = .ok (tr, te, trs, tes) →
      tr.length + te.length = X.length ∧
      (te.length : ℤ) = Int.ceil ((p : ℚ) * X.length / q) ∧
      |(te.length : ℤ) - round ((p : ℚ) * X.length / q)| ≤ 1) ∧
    (∀ (d : DataDir) (topic : Option String) (s : Nat)
        (trX vaX teX : List String) (trY vaY : List Nat),
      stance d topic s = .ok ((trX, trY), (vaX, vaY), teX) →
      ∃ X Y, _stance d.trainFile topic = .ok (X, Y) ∧
        trX.length + vaX.length = X.length ∧
        vaX.length = nTest 1 5 X.length) := by
  constructor
  · intro X Y p q s tr te trs tes hq hpq hok
    obtain ⟨-, htr, hte, -, -⟩ := train_test_split_ok_elim hok
    have hle : nTest p q X.length ≤ X.length := nTest_le p q X.length hq hpq
    obtain ⟨hl1, hl2⟩ := splitIndices_lengths p q s X.length hle
    have htrl : tr.length = X.length - nTest p q X.length := by
      rw [htr, List.length_map, hl1]
    have htel : te.length = nTest p q X.length := by
      rw [hte, List.length_map, hl2]
    have hceil : (te.length : ℤ) = Int.ceil ((p : ℚ) * X.length / q) := by
      rw [htel]; exact nTest_cast p q X.length hq
    refine ⟨by omega, hceil, ?_⟩
    rw [hceil]
    exact ceil_round_close _
  · intro d topic s trX vaX teX trY vaY hok
    obtain ⟨X, Y, Yte, h1, -, -, htr, hva, -, -⟩ := stance_ok_elim hok
    have hle : nTest 1 5 X.length ≤ X.length :=
      nTest_le 1 5 X.length (by omega) (by omega)
    obtain ⟨hl1, hl2⟩ := splitIndices_lengths 1 5 s X.length hle
    refine ⟨X, Y, h1, ?_, ?_⟩
    · rw [htr, hva, List.length_map, List.length_map, hl1, hl2]
      omega
    · rw [hva, List.length_map, hl2]

theorem stance_split_sizes_witness :
    0 < 5 ∧ 1 ≤ 5 ∧
    train_test_split ["a", "b", "c", "d"] [1, 0, 2, 1] 1 5 42 =
      .ok (["d", "c", "a"], ["b"], [1, 2, 1], [0]) ∧
    ((["d", "c", "a"] : List String).length +
        (["b"] : List String).length = 4 ∧
      (((["b"] : List String).length : ℤ)) =
        Int.ceil ((1 : ℚ) * (4 : Nat) / 5) ∧
      |(((["b"] : List String).length : ℤ)) -
        round ((1 : ℚ) * (4 : Nat) / 5)| ≤ 1) :=
  ⟨by decide, by decide, by decide,
    stance_split_sizes.1 ["a", "b", "c", "d"] [1, 0, 2, 1] 1 5 42
      ["d", "c", "a"] ["b"] [1, 2, 1] [0] (by decide) (by decide) (by decide)⟩

/-- C6: the two sides of the split partition the filtered training set:
their index lists are disjoint and their concatenation is a permutation
of all row indices `0..n-1`; at the row level `stance`'s train and
validation texts are the images of these two index lists. -/
theorem stance_split_partition :
    (∀ p q s n : Nat,
      (splitIndices p q s n).1.Disjoint (splitIndices p q s n).2 ∧
      ((splitIndices p q s n).1 ++ (splitIndices p q s n).2).Perm
        (List.range n)) ∧
    (∀ (d : DataDir) (topic : Option String) (s : Nat)
        (trX vaX teX : List String) (trY vaY : List Nat),
      stance d topic s = .ok ((trX, trY), (vaX, vaY), teX) →
      ∃ X Y, _stance d.trainFile topic = .ok (X, Y) ∧
        trX = (splitIndices 1 5 s X.length).1.map (fun i => X.getD i "") ∧
        vaX = (splitIndices 1 5 s X.length).2.map (fun i => X.getD i "") ∧
        trY = (splitIndices 1 5 s X.length).1.map (fun i => Y.getD i 0) ∧
        vaY = (splitIndices 1 5 s X.length).2.map (fun i => Y.getD i 0)) := by
  constructor
  · intro p q s n
    exact ⟨splitIndices_disjoint p q s n, splitIndices_append_perm p q s n⟩
  · intro d topic s trX vaX teX trY vaY hok
    obtain ⟨X, Y, Yte, h1, -, -, htr, hva, htry, hvay⟩ := stance_ok_elim hok
    exact ⟨X, Y, h1, htr, hva, htry, hvay⟩

theorem stance_split_partition_witness :
    (stance exDir none 42 =
      .ok ((["d", "c", "a"], [1, 2, 1]), (["b"], [0]), ["t1"])) ∧
    (∃ X Y, _stance exDir.trainFile none = .ok (X, Y) ∧
      ["d", "c", "a"] = (splitIndices 1 5 42 X.length).1.map
        (fun i => X.getD i "") ∧
      ["b"] = (splitIndices 1 5 42 X.length).2.map (fun i => X.getD i "") ∧
      [1, 2, 1] = (splitIndices 1 5 42 X.length).1.map (fun i => Y.getD i 0) ∧
      [0] = (splitIndices 1 5 42 X.length).2.map (fun i => Y.getD i 0)) :=
  ⟨by decide,
    stance_split_partition.2 exDir none 42 ["d", "c", "a"] ["b"] ["t1"]
      [1, 2, 1] [0] (by decide)⟩

/-- C3 counterexample: `stance` does not succeed on a test file whose
`Stance` entry is missing/empty — it fails with the unrecognized-label
error, refuting the claim that loading the test group never requires
valid stance labels. -/
theorem stance_missing_test_stance_fails :
    stance ⟨exTrain, [⟨"t1", "T", none⟩]⟩ none 42 =
      .error (.unrecognizedLabel none) := by decide

/-- C3 amended: `stance` does require the test file's retained rows to
carry recognizable `Stance` values (the distributed test file fills the
column with `UNKNOWN`): a missing, empty, or unrecognized stance in any
retained test row makes the whole load fail; the labels computed for the
test file are discarded, so the returned test group carries no labels. -/
theorem stance_testfile_labels :
    (∀ (d : DataDir) (topic : Option String) (s : Nat),
      (∃ r ∈ df d.testFile topic, stanceCode r.stance = none) →
      ∃ e, stance d topic s = .error e) ∧
    (∀ (d : DataDir) (topic : Option String) (s : Nat)
        (trX vaX teX : List String) (trY vaY : List Nat),
      stance d topic s = .ok ((trX, trY), (vaX, vaY), teX) →
      ∃ Yte, _stance d.testFile topic = .ok (teX, Yte)) := by
  constructor
  · intro d topic s hbad
    obtain ⟨v, hv, -⟩ := _stance_error_of_bad hbad
    cases h1 : _stance d.trainFile topic with
    | error e =>
      refine ⟨e, ?_⟩
      rw [stance, h1, bindErr]
    | ok XY =>
      obtain ⟨X, Y⟩ := XY
      refine ⟨.unrecognizedLabel v, ?_⟩
      rw [stance, h1, bindOk]
      simp only [hv, bindErr]
  · intro d topic s trX vaX teX trY vaY hok
    obtain ⟨X, Y, Yte, -, h2, -⟩ := stance_ok_elim hok
    exact ⟨Yte, h2⟩

theorem stance_testfile_labels_witness :
    (∃ r ∈ df (DataDir.mk exTrain [⟨"t1", "T", none⟩]).testFile none,
      stanceCode r.stance = none) ∧
    ∃ e, stance (DataDir.mk exTrain [⟨"t1", "T", none⟩]) none 42 = .error e :=
  ⟨⟨⟨"t1", "T", none⟩, by decide, by decide⟩,
    stance_testfile_labels.1 (DataDir.mk exTrain [⟨"t1", "T", none⟩]) none 42
      ⟨⟨"t1", "T", none⟩, by decide, by decide⟩⟩

/-- C4 counterexample: with a topic filter matching no rows, `_stance`
(`loadRaw`) silently returns empty sequences — no `EmptyDataset` (or any
other) error is signalled by the loader itself. -/
theorem loadRaw_silent_empty :
    _stance exTrain (some "Atheism") = .ok ([], []) := by decide

/-- C4 amended: when topic filtering yields zero training rows, `_stance`
silently returns empty sequences; the subsequent split step of `stance`
then fails, but with the splitter's generic empty-train-set error
(scikit-learn's `ValueError`), not a dedicated `EmptyDataset` error. -/
theorem stance_empty_filter (d : DataDir) (topic : Option String) (s : Nat)
    (hempty : df d.trainFile topic = [])
    (htest : ∃ pr, _stance d.testFile topic = .ok pr) :
    _stance d.trainFile topic = .ok ([], []) ∧
    stance d topic s = .error (.emptyTrain 0) := by
  have h1 : _stance d.trainFile topic = .ok ([], []) := by
    rw [_stance_eq, hempty]
    rfl
  refine ⟨h1, ?_⟩
  obtain ⟨⟨teX, Yte⟩, h2⟩ := htest
  rw [stance, h1, bindOk]
  simp only [h2, bindOk]
  rw [show train_test_split [] [] 1 5 s = .error (.emptyTrain 0) from rfl,
    bindErr]

theorem stance_empty_filter_witness :
    df exDir.trainFile (some "Atheism") = [] ∧
    (∃ pr, _stance exDir.testFile (some "Atheism") = .ok pr) ∧
    (_stance exDir.trainFile (some "Atheism") = .ok ([], []) ∧
      stance exDir (some "Atheism") 42 = .error (.emptyTrain 0)) :=
  ⟨by decide, ⟨([], []), by decide⟩,
    stance_empty_filter exDir (some "Atheism") 42 (by decide)
      ⟨([], []), by decide⟩⟩

end StanceLoader
